import Mathlib

/-!
Verification of the Chlorine image browser (`src/main.rs`).

Shallow embedding conventions:
* Rust `String` values are modelled as `List Char` (`Str`); Rust's byte-wise
  `str` comparison agrees with code-point comparison on valid UTF-8, which is
  the lexicographic order on `List Char`.
* `HashMap` fields are modelled as association lists; a fresh insertion is a
  `cons`, `remove` is a key filter, iteration order is the list order (claims
  about iteration-order independence quantify over permutations).
* The asynchronous `poll_promise::Promise` for a key stores the eventual
  result of its decode task, which is fully determined by the filesystem and
  decoder snapshot captured when the task is spawned; a per-call boolean says
  whether `promise.ready()` has become `Some` by the time of the call.
* Fallible external operations (filesystem reads, image decoding, clipboard
  access) are parameters of the corresponding state transformers.
-/

/-- Rust `String`, as its list of characters. -/
abbrev Str := List Char

/-- Raw bytes of a file, as natural numbers `< 256` (the bound is kept where
it matters, in decoded pixel data). -/
abbrev Bytes := List Nat

/-- Rust `str::to_lowercase`, modelled as character-wise lowercasing. -/
def toLowerStr (s : Str) : Str := s.map Char.toLower

/-- Rust `struct ImageInfo` from `main.rs`. -/
structure ImageInfo where
  filename : Str
  relative_path : Str
  full_path : Str
  extension : Str
  size : Nat
deriving DecidableEq, Repr

/-- Rust `struct Category` from `main.rs`. -/
structure Category where
  directory : Str
  images : List ImageInfo
  count : Nat
deriving DecidableEq, Repr

/-- Rust `struct ImageData` from `main.rs`: `categories: HashMap<String, Category>`,
modelled as an association list (one entry per distinct category name). -/
abbrev ImageData := List (Str × Category)

/-- One row of `filtered_images`: a `(category name, image)` pair. -/
abbrev Entry := Str × ImageInfo

/-- The sort key used by `update_filtered_images`:
`a.0.cmp(&b.0).then(a.1.filename.cmp(&b.1.filename))`, i.e. the pair
(category name, filename) ordered lexicographically. -/
def entryKey (e : Entry) : Lex (Str × Str) := toLex (e.1, e.2.filename)

/-- The comparator passed to `sort_by`, as a relation: `a` sorts at-or-before
`b`. -/
def entryLe (a b : Entry) : Prop := entryKey a ≤ entryKey b

instance : DecidableRel entryLe :=
  fun a b => inferInstanceAs (Decidable (entryKey a ≤ entryKey b))

instance : IsTotal Entry entryLe := ⟨fun a b => le_total (entryKey a) (entryKey b)⟩

instance : IsTrans Entry entryLe := ⟨fun _ _ _ h1 h2 => le_trans h1 h2⟩

/-- The per-image match test of `update_filtered_images`:
`search_query.is_empty() || filename_lower.starts_with(&search_lower) ||
filename_lower.contains(&search_lower) || category_lower.contains(&search_lower)`. -/
def matchesSearch (search_query category_name filename : Str) : Bool :=
  let search_lower := toLowerStr search_query
  let filename_lower := toLowerStr filename
  let category_lower := toLowerStr category_name
  search_query.isEmpty ||
    decide (search_lower <+: filename_lower) ||
    decide (search_lower <:+: filename_lower) ||
    decide (search_lower <:+: category_lower)

/-- The rows contributed by one category before sorting: the body of the
`for (category_name, category)` loop of `update_filtered_images`, including
the `show_all_categories || selected_category == *category_name` scope test. -/
def categoryRows (search_query selected_category : Str) (show_all_categories : Bool)
    (c : Str × Category) : List Entry :=
  if show_all_categories || selected_category = c.1 then
    (c.2.images.filter (fun image => matchesSearch search_query c.1 image.filename)).map
      (fun image => (c.1, image))
  else []

/-- The filtered display list computed by `update_filtered_images` from the
catalog: push every in-scope matching `(category, image)` pair in catalog
iteration order, then stably sort by (category name, filename).
Rust's `sort_by` is a stable sort; `List.insertionSort` is the stable sort
used as its model. -/
def filteredImages (search_query selected_category : Str) (show_all_categories : Bool)
    (data : ImageData) : List Entry :=
  List.insertionSort entryLe
    (data.flatMap (categoryRows search_query selected_category show_all_categories))

/-- A decoded image as produced by `image::load_from_memory`: dimensions plus
a pixel function returning 8-bit RGBA components with straight (unassociated)
alpha. -/
structure DecodedImage where
  width : Nat
  height : Nat
  pixel : Nat → Nat → Fin 256 × Fin 256 × Fin 256 × Fin 256

/-- Round `a / b` to the nearest natural number, halves away from zero
(`f64::round` on a nonnegative quotient). -/
def roundNearest (a b : Nat) : Nat := (2 * a + b) / (2 * b)

/-- Modelled from the spec: the `image` crate's `DynamicImage::thumbnail(128, 128)`
is library code outside this repository. Per the spec it computes "a bounded
thumbnail no larger than 128×128 on either axis, preserving aspect ratio",
with the larger dimension exactly 128: both dimensions are scaled by
`min (128/w) (128/h) = 128 / max w h` and rounded to the nearest integer,
with a floor of one pixel. -/
def thumbnailDims (w h : Nat) : Nat × Nat :=
  let m := max w h
  (max 1 (roundNearest (128 * w) m), max 1 (roundNearest (128 * h) m))

/-- Modelled from the spec: `img.thumbnail(128, 128)` — the resampling filter
is library code outside this repository; pixels are taken from the source by
nearest sampling, the dimensions by `thumbnailDims`. -/
def mkThumbnail (img : DecodedImage) : DecodedImage :=
  let d := thumbnailDims img.width img.height
  { width := d.1
    height := d.2
    pixel := fun x y => img.pixel (x * img.width / d.1) (y * img.height / d.2) }

/-- The buffer `to_rgba8().into_raw()`: the row-major 8-bit RGBA byte buffer of an image
(4 bytes per pixel, straight alpha). -/
def rgbaRaw (img : DecodedImage) : List Nat :=
  (List.range img.height).flatMap (fun y =>
    (List.range img.width).flatMap (fun x =>
      let p := img.pixel x y
      [p.1.val, p.2.1.val, p.2.2.1.val, p.2.2.2.val]))

/-- Model of `egui::ColorImage::from_rgba_unmultiplied(size, &pixels)`: dimensions plus
the unmultiplied RGBA byte buffer handed over by the decode task. -/
structure ColorImage where
  size : Nat × Nat
  rgbaBytes : List Nat
deriving DecidableEq, Repr

/-- Model of `egui::TextureHandle`: the renderable handle produced by
`ctx.load_texture(&path, color_image, ..)`. -/
structure Texture where
  name : Str
  image : ColorImage
deriving DecidableEq, Repr

/-- The external world seen by a decode task (and by the clipboard export):
`Path::exists`, `std::fs::read(..).ok()`, `image::load_from_memory(..).ok()`,
and `DynamicImage::as_rgba8` (which is `Some` only when the decoded image is
already stored as 8-bit RGBA). -/
structure DecodeEnv where
  fsExists : Str → Bool
  fsRead : Str → Option Bytes
  decode : Bytes → Option DecodedImage
  asRgba8 : DecodedImage → Option DecodedImage

/-- The body of the thread spawned by `load_image_texture`
(`Promise::spawn_thread("load_image", ..)`): check existence, read, decode,
thumbnail, convert to RGBA; `none` on any failure. The environment is the
snapshot captured when the task is spawned. -/
def decodeTask (env : DecodeEnv) (path : Str) : Option ColorImage :=
  if !(env.fsExists path) then none
  else
    match env.fsRead path with
    | none => none
    | some image_data =>
      match env.decode image_data with
      | none => none
      | some img =>
        let thumbnail := mkThumbnail img
        some { size := (thumbnail.width, thumbnail.height), rgbaBytes := rgbaRaw thumbnail }

/-- Rust `struct ImageSearchApp` from `main.rs` (the UI-only fields
`selected_image`, `settings`, `show_settings` are omitted: no modelled
operation reads or writes them). A `loading_promises` entry stores the
eventual result of its decode task. -/
structure ImageSearchApp where
  image_data : Option ImageData
  search_query : Str
  selected_category : Str
  filtered_images : List Entry
  show_all_categories : Bool
  loaded_textures : List (Str × Texture)
  loading_promises : List (Str × Option ColorImage)
  failed_images : List Str
  status_message : Str

/-- Model of `HashMap::get` on an association list. -/
def lookupA {β : Type _} (k : Str) : List (Str × β) → Option β
  | [] => none
  | p :: l => if p.1 = k then some p.2 else lookupA k l

/-- Model of `HashMap::remove` on an association list. -/
def removeA {β : Type _} (k : Str) : List (Str × β) → List (Str × β)
  | [] => []
  | p :: l => if p.1 = k then removeA k l else p :: removeA k l

/-- Rust `const MAX_CONCURRENT_LOADS: usize = 10`. -/
def MAX_CONCURRENT_LOADS : Nat := 10

/-- The method `update_filtered_images`, as a transformer of the application state: a
no-op when no catalog is loaded (`if let Some(data) = &self.image_data`). -/
def update_filtered_images (s : ImageSearchApp) : ImageSearchApp :=
  match s.image_data with
  | some data =>
    { s with filtered_images :=
        filteredImages s.search_query s.selected_category s.show_all_categories data }
  | none => s

/-- The method `load_image_texture` (the cache `acquire` operation). `env` is the
filesystem/decoder snapshot a freshly spawned task would capture; `ready`
says whether `promise.ready()` returns `Some` at this call. Returns the
updated state and the `Option<egui::TextureHandle>` result. -/
def load_image_texture (env : DecodeEnv) (ready : Bool) (s : ImageSearchApp)
    (image_info : ImageInfo) : ImageSearchApp × Option Texture :=
  let path := image_info.full_path
  match lookupA path s.loaded_textures with
  | some texture => (s, some texture)
  | none =>
    if path ∈ s.failed_images then (s, none)
    else
      match lookupA path s.loading_promises with
      | some result =>
        if ready then
          match result with
          | some color_image =>
            let texture : Texture := ⟨path, color_image⟩
            ({ s with
                loaded_textures := (path, texture) :: s.loaded_textures
                loading_promises := removeA path s.loading_promises }, some texture)
          | none =>
            ({ s with
                loading_promises := removeA path s.loading_promises
                failed_images := path :: s.failed_images }, none)
        else (s, none)
      | none =>
        if MAX_CONCURRENT_LOADS ≤ s.loading_promises.length then (s, none)
        else
          ({ s with
              loading_promises := (path, decodeTask env path) :: s.loading_promises }, none)

/-- One `acquire` call of a call sequence: its environment snapshot, its
promise-readiness observation, and the requested image. -/
structure AcquireCall where
  env : DecodeEnv
  ready : Bool
  info : ImageInfo

/-- Run a sequence of `load_image_texture` calls, keeping the states. -/
def runAcquires (calls : List AcquireCall) (s : ImageSearchApp) : ImageSearchApp :=
  calls.foldl (fun st c => (load_image_texture c.env c.ready st c.info).1) s

/-- Status text `format!("Error: Could not read image_list.json from: {}", cwd)`. -/
def readErrMsg (cwd : Str) : Str :=
  "Error: Could not read image_list.json from: ".data ++ cwd

/-- Status text `format!("Error parsing JSON: {}", e)`. -/
def parseErrMsg (e : Str) : Str := "Error parsing JSON: ".data ++ e

/-- Status text `format!("Loaded {} categories", n)`. -/
def loadedMsg (n : Nat) : Str := "Loaded ".data ++ (toString n).data ++ " categories".data

/-- The method `load_image_data`: read `image_list.json` (`readResult` is
`std::fs::read_to_string(..).ok()`), parse it (`parse` is
`serde_json::from_str`, whose error rendering is a parameter), and either
install the new catalog and refilter, or report the failure in the status
message. `cwd` is the resolved working directory used in the read-failure
message. -/
def load_image_data (readResult : Option Str) (parse : Str → Except Str ImageData)
    (cwd : Str) (s : ImageSearchApp) : ImageSearchApp :=
  match readResult with
  | some content =>
    match parse content with
    | Except.ok data =>
      let s1 := update_filtered_images { s with image_data := some data }
      { s1 with status_message := loadedMsg data.length }
    | Except.error e => { s with status_message := parseErrMsg e }
  | none => { s with status_message := readErrMsg cwd }

/-- The clipboard seen by `copy_image_to_clipboard`: the outcomes of
`arboard::Clipboard::new()` and `clipboard.set_image(..)` (error rendering
as strings). -/
structure ClipboardEnv where
  newResult : Except Str Unit
  setResult : Except Str Unit

/-- Status text `format!("Copied {} to clipboard", filename)`. -/
def copiedMsg (filename : Str) : Str := "Copied ".data ++ filename ++ " to clipboard".data

/-- Status text `format!("Failed to copy to clipboard: {}", e)`. -/
def copyFailMsg (e : Str) : Str := "Failed to copy to clipboard: ".data ++ e

/-- Status text `format!("Failed to access clipboard: {}", e)`. -/
def clipAccessFailMsg (e : Str) : Str := "Failed to access clipboard: ".data ++ e

/-- Status text `format!("Image file not found: {}", full_path)`. -/
def fileNotFoundMsg (p : Str) : Str := "Image file not found: ".data ++ p

/-- The method `copy_image_to_clipboard`: a synchronous full-resolution re-decode and
clipboard write. Mirrors the nesting of the source exactly: a missing file,
a failed decode, and a non-RGBA8 decoded image all fall through silently
(no `else` branch in the source), while a read failure and the two clipboard
failures set the status message. -/
def copy_image_to_clipboard (env : DecodeEnv) (clip : ClipboardEnv)
    (s : ImageSearchApp) (image_info : ImageInfo) : ImageSearchApp :=
  if env.fsExists image_info.full_path then
    match env.fsRead image_info.full_path with
    | some image_data =>
      match env.decode image_data with
      | some img =>
        match env.asRgba8 img with
        | some _rgba =>
          match clip.newResult with
          | Except.ok _ =>
            match clip.setResult with
            | Except.ok _ => { s with status_message := copiedMsg image_info.filename }
            | Except.error e => { s with status_message := copyFailMsg e }
          | Except.error e => { s with status_message := clipAccessFailMsg e }
        | none => s
      | none => s
    | none => { s with status_message := fileNotFoundMsg image_info.full_path }
  else s

/-- The `ThumbnailState` of one key: `absent` (in no table), `pending`
(an outstanding promise, holding its eventual result), `ready`, `failed`. -/
inductive ThumbnailState
  | absent
  | pending (result : Option ColorImage)
  | ready (texture : Texture)
  | failed
deriving DecidableEq

/-- The state of key `k` in the three cache tables (reading them in the
order the source checks them). -/
def keyState (s : ImageSearchApp) (k : Str) : ThumbnailState :=
  match lookupA k s.loaded_textures with
  | some t => ThumbnailState.ready t
  | none =>
    if k ∈ s.failed_images then ThumbnailState.failed
    else
      match lookupA k s.loading_promises with
      | some r => ThumbnailState.pending r
      | none => ThumbnailState.absent

/-- How many of the three cache tables hold key `k`. -/
def tableCount (s : ImageSearchApp) (k : Str) : Nat :=
  (if (lookupA k s.loaded_textures).isSome then 1 else 0) +
    (if k ∈ s.failed_images then 1 else 0) +
    (if (lookupA k s.loading_promises).isSome then 1 else 0)

/-- The transitions the cache state machine may take in one `acquire` call:
`absent` may stay or become `pending`; `pending` may stay (with the same
eventual result) or resolve to `ready` or `failed`; `ready` and `failed` are
terminal. -/
def allowedTransition : ThumbnailState → ThumbnailState → Prop
  | ThumbnailState.absent, t2 => t2 = ThumbnailState.absent ∨ ∃ r, t2 = ThumbnailState.pending r
  | ThumbnailState.pending r, t2 =>
      t2 = ThumbnailState.pending r ∨ (∃ t, t2 = ThumbnailState.ready t) ∨
        t2 = ThumbnailState.failed
  | ThumbnailState.ready t, t2 => t2 = ThumbnailState.ready t
  | ThumbnailState.failed, t2 => t2 = ThumbnailState.failed

theorem lookupA_removeA_self {β : Type _} (k : Str) (l : List (Str × β)) :
    lookupA k (removeA k l) = none := by
  induction l with
  | nil => rfl
  | cons p l ih =>
    by_cases h : p.1 = k
    · simpa [removeA, h] using ih
    · simpa [removeA, lookupA, h] using ih

theorem lookupA_removeA_ne {β : Type _} {k k' : Str} (l : List (Str × β)) (h : k ≠ k') :
    lookupA k (removeA k' l) = lookupA k l := by
  induction l with
  | nil => rfl
  | cons p l ih =>
    by_cases hp : p.1 = k'
    · have hk : p.1 ≠ k := fun hpk => h (by rw [← hpk, hp])
      simp [removeA, lookupA, hp, hk, ih, Ne.symm h]
    · by_cases hk : p.1 = k <;> simp [removeA, lookupA, hp, hk, ih, h]

theorem length_removeA_le {β : Type _} (k : Str) (l : List (Str × β)) :
    (removeA k l).length ≤ l.length := by
  induction l with
  | nil => exact Nat.le_refl 0
  | cons p l ih =>
    by_cases h : p.1 = k
    · simpa [removeA, h] using Nat.le_succ_of_le ih
    · simpa [removeA, h] using ih

/-- Branch equation: key already `Ready`. -/
theorem lit_eq_of_loaded {env ready s image_info t}
    (h : lookupA image_info.full_path s.loaded_textures = some t) :
    load_image_texture env ready s image_info = (s, some t) := by
  simp [load_image_texture, h]

/-- Branch equation: key already `Failed`. -/
theorem lit_eq_of_failed {env ready s image_info}
    (h1 : lookupA image_info.full_path s.loaded_textures = none)
    (h2 : image_info.full_path ∈ s.failed_images) :
    load_image_texture env ready s image_info = (s, none) := by
  simp [load_image_texture, h1, h2]

/-- Branch equation: promise outstanding, not yet complete. -/
theorem lit_eq_of_pending_notReady {env s image_info r}
    (h1 : lookupA image_info.full_path s.loaded_textures = none)
    (h2 : image_info.full_path ∉ s.failed_images)
    (h3 : lookupA image_info.full_path s.loading_promises = some r) :
    load_image_texture env false s image_info = (s, none) := by
  simp [load_image_texture, h1, h2, h3]

/-- Branch equation: promise complete with a bitmap — materialize the
texture, store it `Ready`, drop the outstanding entry. -/
theorem lit_eq_of_pending_ok {env s image_info ci}
    (h1 : lookupA image_info.full_path s.loaded_textures = none)
    (h2 : image_info.full_path ∉ s.failed_images)
    (h3 : lookupA image_info.full_path s.loading_promises = some (some ci)) :
    load_image_texture env true s image_info =
      ({ s with
          loaded_textures :=
            (image_info.full_path, ⟨image_info.full_path, ci⟩) :: s.loaded_textures
          loading_promises := removeA image_info.full_path s.loading_promises },
        some ⟨image_info.full_path, ci⟩) := by
  simp [load_image_texture, h1, h2, h3]

/-- Branch equation: promise complete with no bitmap — record the permanent
failure, drop the outstanding entry. -/
theorem lit_eq_of_pending_fail {env s image_info}
    (h1 : lookupA image_info.full_path s.loaded_textures = none)
    (h2 : image_info.full_path ∉ s.failed_images)
    (h3 : lookupA image_info.full_path s.loading_promises = some none) :
    load_image_texture env true s image_info =
      ({ s with
          loading_promises := removeA image_info.full_path s.loading_promises
          failed_images := image_info.full_path :: s.failed_images }, none) := by
  simp [load_image_texture, h1, h2, h3]

/-- Branch equation: never-requested key deferred by the concurrency ceiling. -/
theorem lit_eq_of_full {env ready s image_info}
    (h1 : lookupA image_info.full_path s.loaded_textures = none)
    (h2 : image_info.full_path ∉ s.failed_images)
    (h3 : lookupA image_info.full_path s.loading_promises = none)
    (h4 : MAX_CONCURRENT_LOADS ≤ s.loading_promises.length) :
    load_image_texture env ready s image_info = (s, none) := by
  simp [load_image_texture, h1, h2, h3, h4]

/-- Branch equation: never-requested key below the ceiling — dispatch a new
decode task. -/
theorem lit_eq_of_dispatch {env ready s image_info}
    (h1 : lookupA image_info.full_path s.loaded_textures = none)
    (h2 : image_info.full_path ∉ s.failed_images)
    (h3 : lookupA image_info.full_path s.loading_promises = none)
    (h4 : s.loading_promises.length < MAX_CONCURRENT_LOADS) :
    load_image_texture env ready s image_info =
      ({ s with
          loading_promises :=
            (image_info.full_path, decodeTask env image_info.full_path) ::
              s.loading_promises }, none) := by
  simp [load_image_texture, h1, h2, h3, Nat.not_le.mpr h4]

/-- Exhaustive case analysis of one `load_image_texture` call: exactly one of
the seven branches of the source applies. -/
theorem load_image_texture_cases (env : DecodeEnv) (ready : Bool) (s : ImageSearchApp)
    (info : ImageInfo) :
    (∃ t, lookupA info.full_path s.loaded_textures = some t ∧
       load_image_texture env ready s info = (s, some t)) ∨
    (lookupA info.full_path s.loaded_textures = none ∧ info.full_path ∈ s.failed_images ∧
       load_image_texture env ready s info = (s, none)) ∨
    (∃ r, lookupA info.full_path s.loaded_textures = none ∧
       info.full_path ∉ s.failed_images ∧
       lookupA info.full_path s.loading_promises = some r ∧ ready = false ∧
       load_image_texture env ready s info = (s, none)) ∨
    (∃ ci, lookupA info.full_path s.loaded_textures = none ∧
       info.full_path ∉ s.failed_images ∧
       lookupA info.full_path s.loading_promises = some (some ci) ∧ ready = true ∧
       load_image_texture env ready s info =
         ({ s with
             loaded_textures :=
               (info.full_path, ⟨info.full_path, ci⟩) :: s.loaded_textures
             loading_promises := removeA info.full_path s.loading_promises },
           some ⟨info.full_path, ci⟩)) ∨
    (lookupA info.full_path s.loaded_textures = none ∧
       info.full_path ∉ s.failed_images ∧
       lookupA info.full_path s.loading_promises = some none ∧ ready = true ∧
       load_image_texture env ready s info =
         ({ s with
             loading_promises := removeA info.full_path s.loading_promises
             failed_images := info.full_path :: s.failed_images }, none)) ∨
    (lookupA info.full_path s.loaded_textures = none ∧
       info.full_path ∉ s.failed_images ∧
       lookupA info.full_path s.loading_promises = none ∧
       MAX_CONCURRENT_LOADS ≤ s.loading_promises.length ∧
       load_image_texture env ready s info = (s, none)) ∨
    (lookupA info.full_path s.loaded_textures = none ∧
       info.full_path ∉ s.failed_images ∧
       lookupA info.full_path s.loading_promises = none ∧
       s.loading_promises.length < MAX_CONCURRENT_LOADS ∧
       load_image_texture env ready s info =
         ({ s with
             loading_promises :=
               (info.full_path, decodeTask env info.full_path) ::
                 s.loading_promises }, none)) := by
  rcases h1 : lookupA info.full_path s.loaded_textures with _ | t
  · by_cases h2 : info.full_path ∈ s.failed_images
    · exact Or.inr (Or.inl ⟨rfl, h2, lit_eq_of_failed h1 h2⟩)
    · rcases h3 : lookupA info.full_path s.loading_promises with _ | r
      · by_cases h4 : MAX_CONCURRENT_LOADS ≤ s.loading_promises.length
        · exact Or.inr (Or.inr (Or.inr (Or.inr (Or.inr (Or.inl
            ⟨rfl, h2, rfl, h4, lit_eq_of_full h1 h2 h3 h4⟩)))))
        · exact Or.inr (Or.inr (Or.inr (Or.inr (Or.inr (Or.inr
            ⟨rfl, h2, rfl, Nat.lt_of_not_le h4,
              lit_eq_of_dispatch h1 h2 h3 (Nat.lt_of_not_le h4)⟩)))))
      · cases ready
        · exact Or.inr (Or.inr (Or.inl
            ⟨r, rfl, h2, rfl, rfl, lit_eq_of_pending_notReady h1 h2 h3⟩))
        · cases r with
          | none =>
            exact Or.inr (Or.inr (Or.inr (Or.inr (Or.inl
              ⟨rfl, h2, rfl, rfl, lit_eq_of_pending_fail h1 h2 h3⟩))))
          | some ci =>
            exact Or.inr (Or.inr (Or.inr (Or.inl
              ⟨ci, rfl, h2, rfl, rfl, lit_eq_of_pending_ok h1 h2 h3⟩)))
  · exact Or.inl ⟨t, rfl, lit_eq_of_loaded h1⟩

/-- Keys other than the resolved one are untouched when a promise completes
with a bitmap. -/
theorem keyState_resolveOk_ne {s : ImageSearchApp} {path k : Str} {tex : Texture}
    (h : k ≠ path) :
    keyState
      { s with
          loaded_textures := (path, tex) :: s.loaded_textures
          loading_promises := removeA path s.loading_promises } k = keyState s k := by
  simp [keyState, lookupA, Ne.symm h, lookupA_removeA_ne _ h]

/-- Keys other than the resolved one are untouched when a promise completes
without a bitmap. -/
theorem keyState_resolveFail_ne {s : ImageSearchApp} {path k : Str} (h : k ≠ path) :
    keyState
      { s with
          loading_promises := removeA path s.loading_promises
          failed_images := path :: s.failed_images } k = keyState s k := by
  simp [keyState, lookupA_removeA_ne _ h, List.mem_cons, h]

/-- Keys other than the dispatched one are untouched when a new task starts. -/
theorem keyState_dispatch_ne {s : ImageSearchApp} {path k : Str} {r : Option ColorImage}
    (h : k ≠ path) :
    keyState { s with loading_promises := (path, r) :: s.loading_promises } k =
      keyState s k := by
  simp [keyState, lookupA, Ne.symm h]

theorem allowedTransition_refl (t : ThumbnailState) : allowedTransition t t := by
  cases t <;> simp [allowedTransition]

/-- One `acquire` call takes every key through an allowed transition. -/
theorem allowedTransition_step (env : DecodeEnv) (ready : Bool) (s : ImageSearchApp)
    (info : ImageInfo) (k : Str) :
    allowedTransition (keyState s k)
      (keyState ((load_image_texture env ready s info).1) k) := by
  rcases load_image_texture_cases env ready s info with
    ⟨t, h1, he⟩ | ⟨h1, h2, he⟩ | ⟨r, h1, h2, h3, hr, he⟩ | ⟨ci, h1, h2, h3, hr, he⟩ |
    ⟨h1, h2, h3, hr, he⟩ | ⟨h1, h2, h3, h4, he⟩ | ⟨h1, h2, h3, h4, he⟩ <;> rw [he]
  · exact allowedTransition_refl _
  · exact allowedTransition_refl _
  · exact allowedTransition_refl _
  · by_cases hk : k = info.full_path
    · subst hk
      have hold : keyState s info.full_path = ThumbnailState.pending (some ci) := by
        simp [keyState, h1, h2, h3]
      have hnew :
          keyState
            { s with
                loaded_textures :=
                  (info.full_path, (⟨info.full_path, ci⟩ : Texture)) :: s.loaded_textures
                loading_promises := removeA info.full_path s.loading_promises }
            info.full_path = ThumbnailState.ready ⟨info.full_path, ci⟩ := by
        simp [keyState, lookupA]
      rw [hold, hnew]
      exact Or.inr (Or.inl ⟨_, rfl⟩)
    · rw [keyState_resolveOk_ne hk]
      exact allowedTransition_refl _
  · by_cases hk : k = info.full_path
    · subst hk
      have hold : keyState s info.full_path = ThumbnailState.pending none := by
        simp [keyState, h1, h2, h3]
      have hnew :
          keyState
            { s with
                loading_promises := removeA info.full_path s.loading_promises
                failed_images := info.full_path :: s.failed_images }
            info.full_path = ThumbnailState.failed := by
        simp [keyState, h1, List.mem_cons]
      rw [hold, hnew]
      exact Or.inr (Or.inr rfl)
    · rw [keyState_resolveFail_ne hk]
      exact allowedTransition_refl _
  · exact allowedTransition_refl _
  · by_cases hk : k = info.full_path
    · subst hk
      have hold : keyState s info.full_path = ThumbnailState.absent := by
        simp [keyState, h1, h2, h3]
      have hnew :
          keyState
            { s with
                loading_promises :=
                  (info.full_path, decodeTask env info.full_path) ::
                    s.loading_promises } info.full_path =
            ThumbnailState.pending (decodeTask env info.full_path) := by
        simp [keyState, lookupA, h1, h2]
      rw [hold, hnew]
      exact Or.inr ⟨_, rfl⟩
    · rw [keyState_dispatch_ne hk]
      exact allowedTransition_refl _

theorem tableCount_resolveOk_ne {s : ImageSearchApp} {path k : Str} {tex : Texture}
    (h : k ≠ path) :
    tableCount
      { s with
          loaded_textures := (path, tex) :: s.loaded_textures
          loading_promises := removeA path s.loading_promises } k = tableCount s k := by
  simp [tableCount, lookupA, Ne.symm h, lookupA_removeA_ne _ h]

theorem tableCount_resolveFail_ne {s : ImageSearchApp} {path k : Str} (h : k ≠ path) :
    tableCount
      { s with
          loading_promises := removeA path s.loading_promises
          failed_images := path :: s.failed_images } k = tableCount s k := by
  simp [tableCount, lookupA_removeA_ne _ h, List.mem_cons, h]

theorem tableCount_dispatch_ne {s : ImageSearchApp} {path k : Str} {r : Option ColorImage}
    (h : k ≠ path) :
    tableCount { s with loading_promises := (path, r) :: s.loading_promises } k =
      tableCount s k := by
  simp [tableCount, lookupA, Ne.symm h]

/-- One `acquire` call keeps every key in at most one of the three tables. -/
theorem tableCount_step (env : DecodeEnv) (ready : Bool) (s : ImageSearchApp)
    (info : ImageInfo) (k : Str) (h : tableCount s k ≤ 1) :
    tableCount ((load_image_texture env ready s info).1) k ≤ 1 := by
  rcases load_image_texture_cases env ready s info with
    ⟨t, h1, he⟩ | ⟨h1, h2, he⟩ | ⟨r, h1, h2, h3, hr, he⟩ | ⟨ci, h1, h2, h3, hr, he⟩ |
    ⟨h1, h2, h3, hr, he⟩ | ⟨h1, h2, h3, h4, he⟩ | ⟨h1, h2, h3, h4, he⟩ <;> rw [he]
  · exact h
  · exact h
  · exact h
  · by_cases hk : k = info.full_path
    · subst hk
      simp [tableCount, lookupA, h2, lookupA_removeA_self]
    · rw [tableCount_resolveOk_ne hk]; exact h
  · by_cases hk : k = info.full_path
    · subst hk
      simp [tableCount, h1, lookupA_removeA_self, List.mem_cons]
    · rw [tableCount_resolveFail_ne hk]; exact h
  · exact h
  · by_cases hk : k = info.full_path
    · subst hk
      simp [tableCount, lookupA, h1, h2]
    · rw [tableCount_dispatch_ne hk]; exact h

/-- One `acquire` call keeps the number of outstanding decode tasks within
the ceiling. -/
theorem loading_length_step (env : DecodeEnv) (ready : Bool) (s : ImageSearchApp)
    (info : ImageInfo) (h : s.loading_promises.length ≤ MAX_CONCURRENT_LOADS) :
    ((load_image_texture env ready s info).1).loading_promises.length ≤
      MAX_CONCURRENT_LOADS := by
  rcases load_image_texture_cases env ready s info with
    ⟨t, h1, he⟩ | ⟨h1, h2, he⟩ | ⟨r, h1, h2, h3, hr, he⟩ | ⟨ci, h1, h2, h3, hr, he⟩ |
    ⟨h1, h2, h3, hr, he⟩ | ⟨h1, h2, h3, h4, he⟩ | ⟨h1, h2, h3, h4, he⟩ <;> rw [he]
  · exact h
  · exact h
  · exact h
  · exact le_trans (length_removeA_le _ _) h
  · exact le_trans (length_removeA_le _ _) h
  · exact h
  · simpa using h4

theorem runAcquires_nil (s : ImageSearchApp) : runAcquires [] s = s := rfl

theorem runAcquires_cons (c : AcquireCall) (cs : List AcquireCall) (s : ImageSearchApp) :
    runAcquires (c :: cs) s = runAcquires cs ((load_image_texture c.env c.ready s c.info).1) :=
  rfl

/-- The ceiling invariant holds along any sequence of `acquire` calls. -/
theorem loading_length_runAcquires (calls : List AcquireCall) (s : ImageSearchApp)
    (h : s.loading_promises.length ≤ MAX_CONCURRENT_LOADS) :
    (runAcquires calls s).loading_promises.length ≤ MAX_CONCURRENT_LOADS := by
  induction calls generalizing s with
  | nil => exact h
  | cons c cs ih =>
    rw [runAcquires_cons]
    exact ih _ (loading_length_step c.env c.ready s c.info h)

/-- A `Ready` key is terminal along any sequence of `acquire` calls. -/
theorem keyState_runAcquires_ready (calls : List AcquireCall) (s : ImageSearchApp)
    (k : Str) (t : Texture) (h : keyState s k = ThumbnailState.ready t) :
    keyState (runAcquires calls s) k = ThumbnailState.ready t := by
  induction calls generalizing s with
  | nil => exact h
  | cons c cs ih =>
    rw [runAcquires_cons]
    refine ih _ ?_
    have hstep := allowedTransition_step c.env c.ready s c.info k
    rw [h] at hstep
    exact hstep

/-- A `Failed` key is terminal along any sequence of `acquire` calls. -/
theorem keyState_runAcquires_failed (calls : List AcquireCall) (s : ImageSearchApp)
    (k : Str) (h : keyState s k = ThumbnailState.failed) :
    keyState (runAcquires calls s) k = ThumbnailState.failed := by
  induction calls generalizing s with
  | nil => exact h
  | cons c cs ih =>
    rw [runAcquires_cons]
    refine ih _ ?_
    have hstep := allowedTransition_step c.env c.ready s c.info k
    rw [h] at hstep
    exact hstep

theorem update_filtered_images_tables (s : ImageSearchApp) :
    (update_filtered_images s).loaded_textures = s.loaded_textures ∧
      (update_filtered_images s).loading_promises = s.loading_promises ∧
      (update_filtered_images s).failed_images = s.failed_images := by
  unfold update_filtered_images
  cases s.image_data <;> simp

/-- A catalog reload touches none of the three cache tables. -/
theorem load_image_data_tables (readResult : Option Str)
    (parse : Str → Except Str ImageData) (cwd : Str) (s : ImageSearchApp) :
    (load_image_data readResult parse cwd s).loaded_textures = s.loaded_textures ∧
      (load_image_data readResult parse cwd s).loading_promises = s.loading_promises ∧
      (load_image_data readResult parse cwd s).failed_images = s.failed_images := by
  unfold load_image_data
  rcases readResult with _ | content
  · simp
  · rcases hp : parse content with e | data
    · simp [hp]
    · obtain ⟨hA, hB, hC⟩ :=
        update_filtered_images_tables { s with image_data := some data }
      simp [hp, hA, hB, hC]

/-- The application state built by `Default::default()` before its
`load_image_data` call (which touches no cache table). -/
def initialState : ImageSearchApp where
  image_data := none
  search_query := []
  selected_category := "All Categories".data
  filtered_images := []
  show_all_categories := true
  loaded_textures := []
  loading_promises := []
  failed_images := []
  status_message := "Loading image list...".data

/-- An image record whose every path field is `p`. -/
def mkImageInfo (p : Str) : ImageInfo where
  filename := p
  relative_path := p
  full_path := p
  extension := []
  size := 0

/-- A world in which no file exists and nothing decodes. -/
def envAbsent : DecodeEnv where
  fsExists := fun _ => false
  fsRead := fun _ => none
  decode := fun _ => none
  asRgba8 := fun _ => none

/-- The spec scenario: 15 distinct never-seen keys (`"A"` … `"O"`) acquired
in one frame (no promise completes between the calls). -/
def scenarioCalls : List AcquireCall :=
  (List.range 15).map (fun i =>
    { env := envAbsent, ready := false, info := mkImageInfo [Char.ofNat (65 + i)] })

/-- The state after the 15 scenario acquisitions. -/
def scenarioFinal : ImageSearchApp := runAcquires scenarioCalls initialState

/-- A concrete renderable handle, for witness states. -/
def texA : Texture := ⟨['A'], { size := (1, 1), rgbaBytes := [0, 0, 0, 0] }⟩

/-- A state in which key `"A"` is `Ready`. -/
def stateReady : ImageSearchApp := { initialState with loaded_textures := [(['A'], texA)] }

/-- A state in which key `"B"` is `Failed`. -/
def stateFailed : ImageSearchApp := { initialState with failed_images := [['B']] }

/-- A state in which key `"B"` is `Pending` with a completed, empty result. -/
def statePending : ImageSearchApp :=
  { initialState with loading_promises := [(['B'], none)] }

/-- C1: the number of simultaneously Pending keys never exceeds the ceiling
of 10 — one `acquire` call preserves the bound, hence any call sequence does —
and in the concrete scenario of 15 distinct never-seen keys acquired in one
frame, exactly the first 10 become Pending and the last 5 stay Absent. -/
theorem claim_C1 :
    (∀ env ready s info, s.loading_promises.length ≤ MAX_CONCURRENT_LOADS →
        ((load_image_texture env ready s info).1).loading_promises.length ≤
          MAX_CONCURRENT_LOADS) ∧
    (∀ calls s, s.loading_promises.length ≤ MAX_CONCURRENT_LOADS →
        (runAcquires calls s).loading_promises.length ≤ MAX_CONCURRENT_LOADS) ∧
    scenarioFinal.loading_promises.length = 10 ∧
    (∀ i ∈ List.range 15, i < 10 →
        keyState scenarioFinal [Char.ofNat (65 + i)] = ThumbnailState.pending none) ∧
    (∀ i ∈ List.range 15, 10 ≤ i →
        keyState scenarioFinal [Char.ofNat (65 + i)] = ThumbnailState.absent) :=
  ⟨fun env ready s info h => loading_length_step env ready s info h,
   fun calls s h => loading_length_runAcquires calls s h,
   by decide, by decide, by decide⟩

/-- Witness for C1 at a concrete input: the empty initial state satisfies the
ceiling bound, and one acquire call keeps it. -/
theorem claim_C1_witness :
    initialState.loading_promises.length ≤ MAX_CONCURRENT_LOADS ∧
    ((load_image_texture envAbsent false initialState (mkImageInfo ['A'])).1).loading_promises.length ≤
      MAX_CONCURRENT_LOADS :=
  ⟨by decide, claim_C1.1 envAbsent false initialState (mkImageInfo ['A']) (by decide)⟩

/-- C2: every key is in at most one of the three tables, each `acquire`
call moves every key only along Absent→Pending, Pending→Ready,
Pending→Failed (or leaves it), Ready and Failed are terminal over any
further call sequence, and a catalog reload (`load_image_data`) touches none
of the three tables. -/
theorem claim_C2 :
    (∀ env ready s info k, tableCount s k ≤ 1 →
        tableCount ((load_image_texture env ready s info).1) k ≤ 1) ∧
    (∀ env ready s info k,
        allowedTransition (keyState s k)
          (keyState ((load_image_texture env ready s info).1) k)) ∧
    (∀ calls s k t, keyState s k = ThumbnailState.ready t →
        keyState (runAcquires calls s) k = ThumbnailState.ready t) ∧
    (∀ calls s k, keyState s k = ThumbnailState.failed →
        keyState (runAcquires calls s) k = ThumbnailState.failed) ∧
    (∀ readResult parse cwd s,
        (load_image_data readResult parse cwd s).loaded_textures = s.loaded_textures ∧
        (load_image_data readResult parse cwd s).loading_promises = s.loading_promises ∧
        (load_image_data readResult parse cwd s).failed_images = s.failed_images) :=
  ⟨fun env ready s info k h => tableCount_step env ready s info k h,
   fun env ready s info k => allowedTransition_step env ready s info k,
   fun calls s k t h => keyState_runAcquires_ready calls s k t h,
   fun calls s k h => keyState_runAcquires_failed calls s k h,
   fun readResult parse cwd s => load_image_data_tables readResult parse cwd s⟩

/-- Witness for C2 at concrete inputs: the at-most-one-table bound holds for
key `"A"` of the initial state and is preserved by a call, and a `Ready` key
stays `Ready` across a further acquire call. -/
theorem claim_C2_witness :
    (tableCount initialState ['A'] ≤ 1 ∧
      tableCount ((load_image_texture envAbsent false initialState (mkImageInfo ['A'])).1)
        ['A'] ≤ 1) ∧
    (keyState stateReady ['A'] = ThumbnailState.ready texA ∧
      keyState
        (runAcquires [{ env := envAbsent, ready := true, info := mkImageInfo ['A'] }]
          stateReady) ['A'] = ThumbnailState.ready texA) :=
  ⟨⟨by decide, claim_C2.1 envAbsent false initialState (mkImageInfo ['A']) ['A'] (by decide)⟩,
   ⟨by decide,
     claim_C2.2.2.1 [{ env := envAbsent, ready := true, info := mkImageInfo ['A'] }]
       stateReady ['A'] texA (by decide)⟩⟩

/-- C3: a key resolved to `Ready` is answered from the cache — the same
stored handle, the state unchanged, independently of the environment and of
promise readiness (no I/O, no dispatch); a key resolved to `Failed` is
answered `none` under the same guarantees. -/
theorem claim_C3 :
    (∀ env ready s info t,
        lookupA info.full_path s.loaded_textures = some t →
        load_image_texture env ready s info = (s, some t)) ∧
    (∀ env ready s info,
        lookupA info.full_path s.loaded_textures = none →
        info.full_path ∈ s.failed_images →
        load_image_texture env ready s info = (s, none)) :=
  ⟨fun _ _ _ _ _ h => lit_eq_of_loaded h,
   fun _ _ _ _ h1 h2 => lit_eq_of_failed h1 h2⟩

/-- Witness for C3 at concrete inputs: a `Ready` key returns its stored
handle with the state unchanged; a `Failed` key returns `none` with the
state unchanged. -/
theorem claim_C3_witness :
    (lookupA ['A'] stateReady.loaded_textures = some texA ∧
      load_image_texture envAbsent true stateReady (mkImageInfo ['A']) =
        (stateReady, some texA)) ∧
    (lookupA ['B'] stateFailed.loaded_textures = none ∧ ['B'] ∈ stateFailed.failed_images ∧
      load_image_texture envAbsent true stateFailed (mkImageInfo ['B']) =
        (stateFailed, none)) :=
  ⟨⟨by decide, claim_C3.1 envAbsent true stateReady (mkImageInfo ['A']) texA (by decide)⟩,
   ⟨by decide, by decide,
     claim_C3.2 envAbsent true stateFailed (mkImageInfo ['B']) (by decide) (by decide)⟩⟩

/-- C4: a decode task spawned while the file does not exist produces no
bitmap; the interactive thread, observing the empty result, records the key
as `Failed` and returns `none` (the empty result — not an exception — is the
failure signal); and a `Failed` key stays `Failed` (never `Ready`) across
any further call sequence, whatever the filesystem looks like later. -/
theorem claim_C4 :
    (∀ env path, env.fsExists path = false → decodeTask env path = none) ∧
    (∀ env s info,
        lookupA info.full_path s.loaded_textures = none →
        info.full_path ∉ s.failed_images →
        lookupA info.full_path s.loading_promises = some none →
        load_image_texture env true s info =
          ({ s with
              loading_promises := removeA info.full_path s.loading_promises
              failed_images := info.full_path :: s.failed_images }, none)) ∧
    (∀ calls s k, keyState s k = ThumbnailState.failed →
        keyState (runAcquires calls s) k = ThumbnailState.failed) :=
  ⟨fun env path h => by simp [decodeTask, h],
   fun _ _ _ h1 h2 h3 => lit_eq_of_pending_fail h1 h2 h3,
   fun calls s k h => keyState_runAcquires_failed calls s k h⟩

/-- Witness for C4 at concrete inputs: in a world with no files the task for
`"A"` yields nothing; a pending-empty key `"B"` is recorded `Failed` when
observed; and it stays `Failed` across a later call in a world where the
file now exists. -/
theorem claim_C4_witness :
    (envAbsent.fsExists ['A'] = false ∧ decodeTask envAbsent ['A'] = none) ∧
    load_image_texture envAbsent true statePending (mkImageInfo ['B']) =
      ({ statePending with
          loading_promises := removeA ['B'] statePending.loading_promises
          failed_images := ['B'] :: statePending.failed_images }, none) ∧
    (keyState stateFailed ['B'] = ThumbnailState.failed ∧
      keyState
        (runAcquires
          [{ env := { envAbsent with fsExists := fun _ => true }, ready := true,
             info := mkImageInfo ['B'] }] stateFailed) ['B'] = ThumbnailState.failed) :=
  ⟨⟨rfl, claim_C4.1 envAbsent ['A'] rfl⟩,
   claim_C4.2.1 envAbsent statePending (mkImageInfo ['B']) (by decide) (by decide) (by decide),
   ⟨by decide,
     claim_C4.2.2
       [{ env := { envAbsent with fsExists := fun _ => true }, ready := true,
          info := mkImageInfo ['B'] }] stateFailed ['B'] (by decide)⟩⟩

/-- C8: a failed catalog load is non-fatal and atomic — a read failure sets
a status message that carries the resolved working directory, a parse
failure sets a status message that carries the parser diagnostic, and in
both cases the previously loaded catalog and the filtered list are left
unchanged. -/
theorem claim_C8 :
    (∀ parse cwd s,
        (load_image_data none parse cwd s).status_message = readErrMsg cwd ∧
        cwd <:+ (load_image_data none parse cwd s).status_message ∧
        (load_image_data none parse cwd s).image_data = s.image_data ∧
        (load_image_data none parse cwd s).filtered_images = s.filtered_images) ∧
    (∀ content parse cwd s e, parse content = Except.error e →
        (load_image_data (some content) parse cwd s).status_message = parseErrMsg e ∧
        e <:+ (load_image_data (some content) parse cwd s).status_message ∧
        (load_image_data (some content) parse cwd s).image_data = s.image_data ∧
        (load_image_data (some content) parse cwd s).filtered_images = s.filtered_images) :=
  ⟨fun parse cwd s =>
    ⟨rfl, List.suffix_append _ _, rfl, rfl⟩,
   fun content parse cwd s e h =>
    ⟨by simp [load_image_data, h],
     by
      have hs : (load_image_data (some content) parse cwd s).status_message = parseErrMsg e := by
        simp [load_image_data, h]
      rw [hs]
      exact List.suffix_append _ _,
     by simp [load_image_data, h],
     by simp [load_image_data, h]⟩⟩

/-- Witness for C8 at concrete inputs: a missing file and a parser error
each leave the initial state's catalog and filtered list unchanged. -/
theorem claim_C8_witness :
    ((load_image_data none (fun _ => Except.error ['b']) "/app".data initialState).status_message =
        readErrMsg "/app".data ∧
      "/app".data <:+
        (load_image_data none (fun _ => Except.error ['b']) "/app".data initialState).status_message ∧
      (load_image_data none (fun _ => Except.error ['b']) "/app".data initialState).image_data =
        initialState.image_data ∧
      (load_image_data none (fun _ => Except.error ['b']) "/app".data initialState).filtered_images =
        initialState.filtered_images) ∧
    ((fun _ => Except.error ['b'] : Str → Except Str ImageData) ['x'] = Except.error ['b'] ∧
      (load_image_data (some ['x']) (fun _ => Except.error ['b']) "/app".data
          initialState).status_message = parseErrMsg ['b'] ∧
      ['b'] <:+
        (load_image_data (some ['x']) (fun _ => Except.error ['b']) "/app".data
            initialState).status_message ∧
      (load_image_data (some ['x']) (fun _ => Except.error ['b']) "/app".data
          initialState).image_data = initialState.image_data ∧
      (load_image_data (some ['x']) (fun _ => Except.error ['b']) "/app".data
          initialState).filtered_images = initialState.filtered_images) :=
  ⟨claim_C8.1 (fun _ => Except.error ['b']) "/app".data initialState,
   ⟨rfl, claim_C8.2 ['x'] (fun _ => Except.error ['b']) "/app".data initialState ['b'] rfl⟩⟩

/-- A clipboard on which both `Clipboard::new()` and `set_image` succeed. -/
def clipOk : ClipboardEnv := ⟨Except.ok (), Except.ok ()⟩

/-- The clipboard export never touches the three cache tables, in any
environment. -/
theorem copy_image_to_clipboard_tables (env : DecodeEnv) (clip : ClipboardEnv)
    (s : ImageSearchApp) (info : ImageInfo) :
    (copy_image_to_clipboard env clip s info).loaded_textures = s.loaded_textures ∧
      (copy_image_to_clipboard env clip s info).loading_promises = s.loading_promises ∧
      (copy_image_to_clipboard env clip s info).failed_images = s.failed_images := by
  unfold copy_image_to_clipboard
  cases h1 : env.fsExists info.full_path
  · simp [h1]
  · rcases h2 : env.fsRead info.full_path with _ | bytes
    · simp [h1, h2]
    · rcases h3 : env.decode bytes with _ | img
      · simp [h1, h2, h3]
      · rcases h4 : env.asRgba8 img with _ | rgba
        · simp [h1, h2, h3, h4]
        · rcases h5 : clip.newResult with e | u
          · simp [h1, h2, h3, h4, h5]
          · rcases h6 : clip.setResult with e | u
            · simp [h1, h2, h3, h4, h5, h6]
            · simp [h1, h2, h3, h4, h5, h6]

/-- C9 counterexample: when the file does not exist, the clipboard export
fails but surfaces nothing — the whole state, status message included, is
returned unchanged — refuting that every call surfaces its outcome as a
status string. -/
theorem claim_C9_counterexample :
    envAbsent.fsExists (mkImageInfo ['A']).full_path = false ∧
    copy_image_to_clipboard envAbsent clipOk initialState (mkImageInfo ['A']) = initialState :=
  ⟨rfl, rfl⟩

/-- C9 (amended): the clipboard export never modifies the three cache
tables; a read failure and the two clipboard failures, as well as success,
are surfaced as status strings; but a missing file, an undecodable image,
and a decoded image that is not already 8-bit RGBA are silent no-ops. -/
theorem claim_C9_amended :
    (∀ env clip s info,
        (copy_image_to_clipboard env clip s info).loaded_textures = s.loaded_textures ∧
        (copy_image_to_clipboard env clip s info).loading_promises = s.loading_promises ∧
        (copy_image_to_clipboard env clip s info).failed_images = s.failed_images) ∧
    (∀ env clip s info, env.fsExists info.full_path = false →
        copy_image_to_clipboard env clip s info = s) ∧
    (∀ env clip s info, env.fsExists info.full_path = true →
        env.fsRead info.full_path = none →
        (copy_image_to_clipboard env clip s info).status_message =
          fileNotFoundMsg info.full_path) ∧
    (∀ env clip s info bytes, env.fsExists info.full_path = true →
        env.fsRead info.full_path = some bytes → env.decode bytes = none →
        copy_image_to_clipboard env clip s info = s) ∧
    (∀ env clip s info bytes img, env.fsExists info.full_path = true →
        env.fsRead info.full_path = some bytes → env.decode bytes = some img →
        env.asRgba8 img = none →
        copy_image_to_clipboard env clip s info = s) ∧
    (∀ env clip s info bytes img rgba e, env.fsExists info.full_path = true →
        env.fsRead info.full_path = some bytes → env.decode bytes = some img →
        env.asRgba8 img = some rgba → clip.newResult = Except.error e →
        (copy_image_to_clipboard env clip s info).status_message = clipAccessFailMsg e) ∧
    (∀ env clip s info bytes img rgba e, env.fsExists info.full_path = true →
        env.fsRead info.full_path = some bytes → env.decode bytes = some img →
        env.asRgba8 img = some rgba → clip.newResult = Except.ok () →
        clip.setResult = Except.error e →
        (copy_image_to_clipboard env clip s info).status_message = copyFailMsg e) ∧
    (∀ env clip s info bytes img rgba, env.fsExists info.full_path = true →
        env.fsRead info.full_path = some bytes → env.decode bytes = some img →
        env.asRgba8 img = some rgba → clip.newResult = Except.ok () →
        clip.setResult = Except.ok () →
        (copy_image_to_clipboard env clip s info).status_message =
          copiedMsg info.filename) :=
  ⟨fun env clip s info => copy_image_to_clipboard_tables env clip s info,
   fun env clip s info h1 => by simp [copy_image_to_clipboard, h1],
   fun env clip s info h1 h2 => by simp [copy_image_to_clipboard, h1, h2],
   fun env clip s info bytes h1 h2 h3 => by simp [copy_image_to_clipboard, h1, h2, h3],
   fun env clip s info bytes img h1 h2 h3 h4 => by
    simp [copy_image_to_clipboard, h1, h2, h3, h4],
   fun env clip s info bytes img rgba e h1 h2 h3 h4 h5 => by
    simp [copy_image_to_clipboard, h1, h2, h3, h4, h5],
   fun env clip s info bytes img rgba e h1 h2 h3 h4 h5 h6 => by
    simp [copy_image_to_clipboard, h1, h2, h3, h4, h5, h6],
   fun env clip s info bytes img rgba h1 h2 h3 h4 h5 h6 => by
    simp [copy_image_to_clipboard, h1, h2, h3, h4, h5, h6]⟩

/-- A 1×1 decoded image, for witness states. -/
def dimg1 : DecodedImage := { width := 1, height := 1, pixel := fun _ _ => (0, 0, 0, 0) }

/-- A world in which every file exists, reads as empty, and decodes to the
1×1 RGBA image. -/
def envOk : DecodeEnv where
  fsExists := fun _ => true
  fsRead := fun _ => some []
  decode := fun _ => some dimg1
  asRgba8 := fun d => some d

/-- A world in which every file exists but reading it fails. -/
def envReadFail : DecodeEnv where
  fsExists := fun _ => true
  fsRead := fun _ => none
  decode := fun _ => none
  asRgba8 := fun _ => none

/-- Witness for C9 (amended) at concrete inputs: a read failure is surfaced
and the tables are untouched; a fully successful export is surfaced. -/
theorem claim_C9_amended_witness :
    ((copy_image_to_clipboard envReadFail clipOk initialState (mkImageInfo ['A'])).loaded_textures =
        initialState.loaded_textures ∧
      (copy_image_to_clipboard envReadFail clipOk initialState (mkImageInfo ['A'])).loading_promises =
        initialState.loading_promises ∧
      (copy_image_to_clipboard envReadFail clipOk initialState (mkImageInfo ['A'])).failed_images =
        initialState.failed_images) ∧
    (copy_image_to_clipboard envReadFail clipOk initialState (mkImageInfo ['A'])).status_message =
      fileNotFoundMsg ['A'] ∧
    (copy_image_to_clipboard envOk clipOk initialState (mkImageInfo ['A'])).status_message =
      copiedMsg ['A'] :=
  ⟨claim_C9_amended.1 envReadFail clipOk initialState (mkImageInfo ['A']),
   claim_C9_amended.2.2.1 envReadFail clipOk initialState (mkImageInfo ['A']) rfl rfl,
   claim_C9_amended.2.2.2.2.2.2.2 envOk clipOk initialState (mkImageInfo ['A'])
     [] dimg1 dimg1 rfl rfl rfl rfl rfl rfl⟩

theorem roundNearest_self (w : Nat) (hw : 0 < w) : roundNearest (128 * w) w = 128 := by
  unfold roundNearest
  rw [show 2 * (128 * w) + w = w + 2 * w * 128 by ring]
  rw [Nat.add_mul_div_left _ _ (by omega : 0 < 2 * w)]
  rw [Nat.div_eq_of_lt (by omega : w < 2 * w)]

theorem roundNearest_le_128 (h w : Nat) (hle : h ≤ w) (hw : 0 < w) :
    roundNearest (128 * h) w ≤ 128 := by
  have hmono : (2 * (128 * h) + w) / (2 * w) ≤ (2 * (128 * w) + w) / (2 * w) :=
    Nat.div_le_div_right (by omega)
  have heq : (2 * (128 * w) + w) / (2 * w) = 128 := roundNearest_self w hw
  unfold roundNearest
  omega

/-- The thumbnail dimensions for a landscape-or-square source `w × h`
(`h ≤ w`): width exactly 128, height at most 128, and the aspect ratio kept
to within rounding (stated as a two-sided bound scaled by `w`). -/
theorem thumbnailDims_spec_le (w h : Nat) (hw : 0 < w) (hle : h ≤ w) :
    (thumbnailDims w h).1 = 128 ∧ (thumbnailDims w h).2 ≤ 128 ∧
      (thumbnailDims w h).1 * h ≤ (thumbnailDims w h).2 * w + w ∧
      (thumbnailDims w h).2 * w ≤ (thumbnailDims w h).1 * h + w := by
  have hmax : max w h = w := max_eq_left hle
  have e1 : (thumbnailDims w h).1 = max 1 (roundNearest (128 * w) w) := by
    simp [thumbnailDims, hmax]
  have e2 : (thumbnailDims w h).2 = max 1 (roundNearest (128 * h) w) := by
    simp [thumbnailDims, hmax]
  have h1 : (thumbnailDims w h).1 = 128 := by
    rw [e1, roundNearest_self w hw]
    exact max_eq_right (by omega)
  have hrle := roundNearest_le_128 h w hle hw
  have haspect :
      128 * h ≤ (max 1 (roundNearest (128 * h) w)) * w + w ∧
        (max 1 (roundNearest (128 * h) w)) * w ≤ 128 * h + w := by
    rcases Nat.eq_zero_or_pos (roundNearest (128 * h) w) with h0 | hpos
    · have hlt : 2 * (128 * h) + w < 2 * w := by
        have h0' : (2 * (128 * h) + w) / (2 * w) = 0 := by
          simpa [roundNearest] using h0
        exact (Nat.div_eq_zero_iff (by omega : 0 < 2 * w)).1 h0'
      rw [h0]
      norm_num
      omega
    · rw [max_eq_right hpos]
      have hdm := Nat.div_add_mod (2 * (128 * h) + w) (2 * w)
      have hml : (2 * (128 * h) + w) % (2 * w) < 2 * w :=
        Nat.mod_lt _ (by omega)
      have hq : (2 * (128 * h) + w) / (2 * w) = roundNearest (128 * h) w := by
        simp [roundNearest]
      rw [hq] at hdm
      have hX : 2 * w * roundNearest (128 * h) w =
          2 * (roundNearest (128 * h) w * w) := by ring
      rw [hX] at hdm
      omega
  exact ⟨h1, by rw [e2]; exact max_le (by omega) hrle,
    by rw [h1, e2]; exact haspect.1, by rw [h1, e2]; exact haspect.2⟩

theorem thumbnailDims_swap (w h : Nat) :
    thumbnailDims w h = ((thumbnailDims h w).2, (thumbnailDims h w).1) := by
  simp [thumbnailDims, Nat.max_comm w h]

/-- Thumbnail dimensions for any nonempty source: both bounded by 128, the
larger exactly 128, and the aspect ratio preserved to within rounding. -/
theorem thumbnailDims_spec (w h : Nat) (hw : 0 < w) (hh : 0 < h) :
    max (thumbnailDims w h).1 (thumbnailDims w h).2 = 128 ∧
      (thumbnailDims w h).1 ≤ 128 ∧ (thumbnailDims w h).2 ≤ 128 ∧
      (thumbnailDims w h).1 * h ≤ (thumbnailDims w h).2 * w + max w h ∧
      (thumbnailDims w h).2 * w ≤ (thumbnailDims w h).1 * h + max w h := by
  rcases le_total h w with hle | hle
  · obtain ⟨a1, a2, a3, a4⟩ := thumbnailDims_spec_le w h hw hle
    have hm : max w h = w := max_eq_left hle
    refine ⟨?_, by omega, a2, by omega, by omega⟩
    rw [a1]
    exact max_eq_left a2
  · obtain ⟨a1, a2, a3, a4⟩ := thumbnailDims_spec_le h w hh hle
    have hswap := thumbnailDims_swap w h
    have hm : max w h = h := max_eq_right hle
    rw [hswap]
    simp only
    refine ⟨?_, a2, by omega, by omega, by omega⟩
    rw [a1]
    exact max_eq_right a2

theorem length_flatMap_range {β : Type _} (n c : Nat) (f : Nat → List β)
    (h : ∀ i, (f i).length = c) : ((List.range n).flatMap f).length = n * c := by
  induction n with
  | zero => simp
  | succ n ih =>
    rw [List.range_succ, List.flatMap_append, List.length_append, ih]
    simp [h n, Nat.succ_mul]

/-- The raw RGBA buffer has four bytes per pixel. -/
theorem rgbaRaw_length (img : DecodedImage) :
    (rgbaRaw img).length = img.height * (img.width * 4) := by
  unfold rgbaRaw
  refine length_flatMap_range _ _ _ (fun y => ?_)
  exact length_flatMap_range _ _ _ (fun x => rfl)

/-- Every entry of the raw RGBA buffer is an 8-bit byte. -/
theorem rgbaRaw_lt_256 (img : DecodedImage) : ∀ b ∈ rgbaRaw img, b < 256 := by
  intro b hb
  simp only [rgbaRaw, List.mem_flatMap, List.mem_range] at hb
  obtain ⟨y, _, x, _, hb⟩ := hb
  simp only [List.mem_cons, List.not_mem_nil, or_false] at hb
  rcases hb with h | h | h | h <;> subst h <;> exact Fin.isLt _

/-- C7: when the decode task succeeds on an `N×M` source, the produced
bitmap's dimensions are the thumbnail dimensions: neither exceeds 128, the
larger is exactly 128, and the aspect ratio matches the source within
integer-rounding tolerance (a two-sided bound scaled by `max N M`); its
pixel buffer is the straight-alpha RGBA byte buffer, four 8-bit bytes per
pixel. -/
theorem claim_C7 (env : DecodeEnv) (path : Str) (bytes : Bytes) (img : DecodedImage)
    (h1 : env.fsExists path = true) (h2 : env.fsRead path = some bytes)
    (h3 : env.decode bytes = some img) (hw : 0 < img.width) (hh : 0 < img.height) :
    ∃ ci, decodeTask env path = some ci ∧
      ci.size = thumbnailDims img.width img.height ∧
      max ci.size.1 ci.size.2 = 128 ∧ ci.size.1 ≤ 128 ∧ ci.size.2 ≤ 128 ∧
      ci.size.1 * img.height ≤ ci.size.2 * img.width + max img.width img.height ∧
      ci.size.2 * img.width ≤ ci.size.1 * img.height + max img.width img.height ∧
      ci.rgbaBytes.length = 4 * (ci.size.1 * ci.size.2) ∧
      ∀ b ∈ ci.rgbaBytes, b < 256 := by
  obtain ⟨s1, s2, s3, s4, s5⟩ := thumbnailDims_spec img.width img.height hw hh
  refine ⟨{ size := ((mkThumbnail img).width, (mkThumbnail img).height)
            rgbaBytes := rgbaRaw (mkThumbnail img) }, ?_, ?_, ?_, ?_, ?_, ?_, ?_, ?_, ?_⟩
  · simp [decodeTask, h1, h2, h3]
  · show ((thumbnailDims img.width img.height).1, (thumbnailDims img.width img.height).2) =
      thumbnailDims img.width img.height
    rfl
  · exact s1
  · exact s2
  · exact s3
  · exact s4
  · exact s5
  · show (rgbaRaw (mkThumbnail img)).length =
      4 * ((mkThumbnail img).width * (mkThumbnail img).height)
    rw [rgbaRaw_length]
    ring
  · exact rgbaRaw_lt_256 (mkThumbnail img)

/-- A 200×100 decoded source image. -/
def dimg200 : DecodedImage := { width := 200, height := 100, pixel := fun _ _ => (0, 0, 0, 0) }

/-- A world in which every file exists and decodes to the 200×100 image. -/
def env200 : DecodeEnv where
  fsExists := fun _ => true
  fsRead := fun _ => some []
  decode := fun _ => some dimg200
  asRgba8 := fun _ => none

/-- Witness for C7 at a concrete input: the 200×100 source decodes to a
thumbnail with the stated dimension and buffer properties. -/
theorem claim_C7_witness :
    ∃ ci, decodeTask env200 ['A'] = some ci ∧
      ci.size = thumbnailDims dimg200.width dimg200.height ∧
      max ci.size.1 ci.size.2 = 128 ∧ ci.size.1 ≤ 128 ∧ ci.size.2 ≤ 128 ∧
      ci.size.1 * dimg200.height ≤
        ci.size.2 * dimg200.width + max dimg200.width dimg200.height ∧
      ci.size.2 * dimg200.width ≤
        ci.size.1 * dimg200.height + max dimg200.width dimg200.height ∧
      ci.rgbaBytes.length = 4 * (ci.size.1 * ci.size.2) ∧
      ∀ b ∈ ci.rgbaBytes, b < 256 :=
  claim_C7 env200 ['A'] [] dimg200 rfl rfl rfl (by decide) (by decide)

theorem matchesSearch_iff (q cat fn : Str) :
    matchesSearch q cat fn = true ↔
      q = [] ∨ toLowerStr q <+: toLowerStr fn ∨ toLowerStr q <:+: toLowerStr fn ∨
        toLowerStr q <:+: toLowerStr cat := by
  simp [matchesSearch, List.isEmpty_iff, or_assoc]

theorem mem_categoryRows_iff (q sc : Str) (sa : Bool) (c : Str × Category) (cat : Str)
    (img : ImageInfo) :
    (cat, img) ∈ categoryRows q sc sa c ↔
      (sa = true ∨ sc = c.1) ∧ cat = c.1 ∧ img ∈ c.2.images ∧
        matchesSearch q c.1 img.filename = true := by
  unfold categoryRows
  by_cases hs : (sa || decide (sc = c.1)) = true
  · rw [if_pos hs]
    simp only [Bool.or_eq_true, decide_eq_true_eq] at hs
    simp only [List.mem_map, List.mem_filter]
    constructor
    · rintro ⟨a, ⟨ha, hm⟩, heq⟩
      obtain ⟨h1, h2⟩ := Prod.mk.injEq _ _ _ _ ▸ heq
      exact ⟨hs, h1.symm, h2 ▸ ha, h2 ▸ hm⟩
    · rintro ⟨_, rfl, hmem, hm⟩
      exact ⟨img, ⟨hmem, hm⟩, rfl⟩
  · rw [if_neg hs]
    simp only [Bool.or_eq_true, decide_eq_true_eq, not_or] at hs
    simp [hs.1, hs.2]

theorem mem_filteredImages_iff (q sc : Str) (sa : Bool) (data : ImageData) (cat : Str)
    (img : ImageInfo) :
    (cat, img) ∈ filteredImages q sc sa data ↔
      ∃ c : Category, (cat, c) ∈ data ∧ img ∈ c.images ∧ (sa = true ∨ sc = cat) ∧
        (q = [] ∨ toLowerStr q <+: toLowerStr img.filename ∨
          toLowerStr q <:+: toLowerStr img.filename ∨ toLowerStr q <:+: toLowerStr cat) := by
  unfold filteredImages
  rw [List.mem_insertionSort, List.mem_flatMap]
  constructor
  · rintro ⟨p, hp, hrow⟩
    obtain ⟨hscope, rfl, hmem, hm⟩ := (mem_categoryRows_iff q sc sa p _ img).1 hrow
    exact ⟨p.2, hp, hmem, hscope, (matchesSearch_iff q p.1 img.filename).1 hm⟩
  · rintro ⟨c, hc, hmem, hscope, hm⟩
    refine ⟨(cat, c), hc, (mem_categoryRows_iff q sc sa (cat, c) cat img).2 ?_⟩
    exact ⟨hscope, rfl, hmem, (matchesSearch_iff q cat img.filename).2 hm⟩

/-- C5: the filtered display list holds exactly the in-scope
`(category, image)` pairs whose lowercased filename has the lowercased query
as a prefix or substring, or whose lowercased category name has it as a
substring (or everything when the query is empty); and the list is sorted by
the lexicographic (category name, filename) key. -/
theorem claim_C5 :
    (∀ q sc sa data (cat : Str) (img : ImageInfo),
        (cat, img) ∈ filteredImages q sc sa data ↔
          ∃ c : Category, (cat, c) ∈ data ∧ img ∈ c.images ∧ (sa = true ∨ sc = cat) ∧
            (q = [] ∨ toLowerStr q <+: toLowerStr img.filename ∨
              toLowerStr q <:+: toLowerStr img.filename ∨
              toLowerStr q <:+: toLowerStr cat)) ∧
    (∀ q sc sa data, List.Sorted entryLe (filteredImages q sc sa data)) :=
  ⟨fun q sc sa data cat img => mem_filteredImages_iff q sc sa data cat img,
   fun _ _ _ _ => List.sorted_insertionSort entryLe _⟩

/-- The `"Nature"` category of the C6 scenario. -/
def natureCat : Category where
  directory := "Nature".data
  images := [mkImageInfo "a.jpg".data, mkImageInfo "b.png".data]
  count := 2

/-- The `"Urban"` category of the C6 scenario. -/
def urbanCat : Category where
  directory := "Urban".data
  images := [mkImageInfo "c.jpg".data]
  count := 1

/-- The C6 scenario catalog. -/
def dataC6 : ImageData := [("Nature".data, natureCat), ("Urban".data, urbanCat)]

/-- C6 counterexample: with query `"b"` over all categories, the code's
result is not the single-element list `[("Nature", b.png)]` the claim
demands — the category name `"Urban"` also contains `"b"`, so `c.jpg`
matches too. -/
theorem claim_C6_counterexample :
    filteredImages "b".data "All Categories".data true dataC6 ≠
      [("Nature".data, mkImageInfo "b.png".data)] := by decide

/-- C6 (amended): with query `"b"` over all categories the result is exactly
`[("Nature", b.png), ("Urban", c.jpg)]` — `b.png` by filename containment
and `c.jpg` because its category name `"Urban"` contains `"b"`
case-insensitively. -/
theorem claim_C6_amended :
    filteredImages "b".data "All Categories".data true dataC6 =
      [("Nature".data, mkImageInfo "b.png".data),
       ("Urban".data, mkImageInfo "c.jpg".data)] := by decide

/-- Inserting into a list does not change the subsequence of any tie class
(a predicate whose holders are pairwise `r`-related). -/
theorem filter_orderedInsert_tie {α : Type _} (r : α → α → Prop) [DecidableRel r]
    (p : α → Bool) (hp : ∀ x y, p x = true → p y = true → r x y) (a : α) :
    ∀ l, (List.orderedInsert r a l).filter p = (a :: l).filter p
  | [] => rfl
  | b :: l => by
    by_cases hr : r a b
    · simp [List.orderedInsert, hr]
    · have ih := filter_orderedInsert_tie r p hp a l
      by_cases ha : p a = true
      · have hb : ¬p b = true := fun hb => hr (hp a b ha hb)
        simp [List.orderedInsert, hr, List.filter_cons, ha, hb, ih]
      · simp [List.orderedInsert, hr, List.filter_cons, ha, ih]

/-- Stability of the sort: the subsequence of any tie class is unchanged. -/
theorem filter_insertionSort_tie {α : Type _} (r : α → α → Prop) [DecidableRel r]
    (p : α → Bool) (hp : ∀ x y, p x = true → p y = true → r x y) :
    ∀ l, (List.insertionSort r l).filter p = l.filter p
  | [] => rfl
  | a :: l => by
    rw [List.insertionSort, filter_orderedInsert_tie r p hp a _]
    simp [List.filter_cons, filter_insertionSort_tie r p hp l]

/-- Two key-sorted lists agreeing on every key class are equal. -/
theorem eq_of_sorted_of_filter_eq {α K : Type _} [LinearOrder K] [DecidableEq K]
    (key : α → K) :
    ∀ (l1 l2 : List α), l1.Pairwise (fun a b => key a ≤ key b) →
      l2.Pairwise (fun a b => key a ≤ key b) →
      (∀ k, l1.filter (fun x => decide (key x = k)) =
        l2.filter (fun x => decide (key x = k))) →
      l1 = l2
  | [], [], _, _, _ => rfl
  | [], b :: t2, _, _, hf => by
    exfalso
    have hb : b ∈ (b :: t2).filter (fun x => decide (key x = key b)) :=
      List.mem_filter.mpr ⟨List.mem_cons_self b t2, by simp⟩
    rw [← hf (key b)] at hb
    simp at hb
  | a :: t1, [], _, _, hf => by
    exfalso
    have ha : a ∈ (a :: t1).filter (fun x => decide (key x = key a)) :=
      List.mem_filter.mpr ⟨List.mem_cons_self a t1, by simp⟩
    rw [hf (key a)] at ha
    simp at ha
  | a :: t1, b :: t2, h1, h2, hf => by
    have hge : key b ≤ key a := by
      rcases eq_or_ne (key b) (key a) with h | h
      · exact le_of_eq h
      · have hfa := hf (key a)
        rw [List.filter_cons, List.filter_cons] at hfa
        simp only [decide_eq_true_eq, if_pos rfl, h, if_neg (by simpa using h),
          ite_true, ite_false] at hfa
        have ha2 : a ∈ t2.filter (fun x => decide (key x = key a)) := by
          rw [← hfa]; exact List.mem_cons_self _ _
        exact (List.pairwise_cons.mp h2).1 a (List.mem_filter.mp ha2).1
    have hle : key a ≤ key b := by
      rcases eq_or_ne (key a) (key b) with h | h
      · exact le_of_eq h
      · have hfb := hf (key b)
        rw [List.filter_cons, List.filter_cons] at hfb
        simp only [decide_eq_true_eq, if_pos rfl, h, if_neg (by simpa using h),
          ite_true, ite_false] at hfb
        have hb1 : b ∈ t1.filter (fun x => decide (key x = key b)) := by
          rw [hfb]; exact List.mem_cons_self _ _
        exact (List.pairwise_cons.mp h1).1 b (List.mem_filter.mp hb1).1
    have hkab : key a = key b := le_antisymm hle hge
    have hfa := hf (key a)
    rw [List.filter_cons, List.filter_cons] at hfa
    simp only [decide_eq_true_eq, if_pos rfl, if_pos hkab.symm] at hfa
    obtain ⟨hab, htails⟩ := List.cons.injEq _ _ _ _ ▸ hfa
    have htail : ∀ k, t1.filter (fun x => decide (key x = k)) =
        t2.filter (fun x => decide (key x = k)) := by
      intro k
      rcases eq_or_ne (key a) k with hk | hk
      · rw [← hk]; exact htails
      · have hfk := hf k
        rw [List.filter_cons, List.filter_cons] at hfk
        simp only [decide_eq_true_eq, if_neg hk, if_neg (hkab ▸ hk)] at hfk
        exact hfk
    have := eq_of_sorted_of_filter_eq key t1 t2 (List.pairwise_cons.mp h1).2
      (List.pairwise_cons.mp h2).2 htail
    rw [hab, this]

/-- Contributions vanish outside one key class, so a flat map may be
restricted to that class. -/
theorem flatMap_eq_filter_flatMap {β : Type _} (n : Str) (g : Str × Category → List β)
    (hg : ∀ c, c.1 ≠ n → g c = []) :
    ∀ l : List (Str × Category),
      l.flatMap g = (l.filter (fun c => decide (c.1 = n))).flatMap g
  | [] => rfl
  | c :: l => by
    by_cases hc : c.1 = n
    · simp [List.filter_cons, hc, flatMap_eq_filter_flatMap n g hg l]
    · simp [List.filter_cons, hc, hg c hc, flatMap_eq_filter_flatMap n g hg l]

theorem length_le_one_of_nodup_const {β : Type _} :
    ∀ (l : List β) (n : β), l.Nodup → (∀ x ∈ l, x = n) → l.length ≤ 1
  | [], _, _, _ => by simp
  | [_], _, _, _ => by simp
  | x :: y :: t, n, hn, hall => by
    exfalso
    have hx := hall x (by simp)
    have hy := hall y (by simp)
    rw [List.nodup_cons] at hn
    have hxy : x = y := hx.trans hy.symm
    exact hn.1 (by rw [hxy]; exact List.mem_cons_self y t)

theorem eq_of_perm_of_length_le_one {β : Type _} :
    ∀ {l1 l2 : List β}, l1.Perm l2 → l1.length ≤ 1 → l1 = l2
  | [], l2, h, _ => h.nil_eq
  | [a], l2, h, _ => (List.Perm.eq_singleton h.symm).symm
  | _ :: _ :: _, _, _, hl => by simp at hl

/-- Permuting an association list with distinct keys does not change the
(at most one) entry at any key. -/
theorem filter_key_eq_of_perm (d1 d2 : ImageData) (hperm : d1.Perm d2)
    (hnodup : (d1.map Prod.fst).Nodup) (n : Str) :
    d1.filter (fun c => decide (c.1 = n)) = d2.filter (fun c => decide (c.1 = n)) := by
  apply eq_of_perm_of_length_le_one (hperm.filter _)
  have hsub : List.Sublist ((d1.filter (fun c => decide (c.1 = n))).map Prod.fst)
      (d1.map Prod.fst) :=
    (List.filter_sublist d1).map Prod.fst
  have hnd : ((d1.filter (fun c => decide (c.1 = n))).map Prod.fst).Nodup :=
    List.Nodup.sublist hsub hnodup
  have hall : ∀ x ∈ (d1.filter (fun c => decide (c.1 = n))).map Prod.fst, x = n := by
    intro x hx
    simp only [List.mem_map, List.mem_filter, decide_eq_true_eq] at hx
    obtain ⟨c, ⟨_, hc⟩, rfl⟩ := hx
    exact hc
  have := length_le_one_of_nodup_const _ n hnd hall
  simpa using this

/-- Every row a category contributes carries that category's name. -/
theorem categoryRows_fst (q sc : Str) (sa : Bool) (c : Str × Category) :
    ∀ e ∈ categoryRows q sc sa c, e.1 = c.1 := by
  intro e he
  unfold categoryRows at he
  by_cases hs : (sa || decide (sc = c.1)) = true
  · rw [if_pos hs] at he
    obtain ⟨a, _, rfl⟩ := List.mem_map.1 he
    rfl
  · rw [if_neg hs] at he
    simp at he

/-- C10: the Filter Engine is deterministic in the catalog hash map's
iteration order — permuting the association list of categories (whose names,
as hash map keys, are distinct) yields the identical sorted output. -/
theorem claim_C10 (q sc : Str) (sa : Bool) (d1 d2 : ImageData)
    (hperm : d1.Perm d2) (hnodup : (d1.map Prod.fst).Nodup) :
    filteredImages q sc sa d1 = filteredImages q sc sa d2 := by
  apply eq_of_sorted_of_filter_eq entryKey
  · exact List.sorted_insertionSort entryLe _
  · exact List.sorted_insertionSort entryLe _
  · intro k
    have htie : ∀ x y, (fun x => decide (entryKey x = k)) x = true →
        (fun x => decide (entryKey x = k)) y = true → entryLe x y := by
      intro x y hx hy
      simp only [decide_eq_true_eq] at hx hy
      unfold entryLe
      rw [hx, hy]
    unfold filteredImages
    rw [filter_insertionSort_tie entryLe _ htie, filter_insertionSort_tie entryLe _ htie,
      List.filter_flatMap, List.filter_flatMap]
    have hg : ∀ c, c.1 ≠ (ofLex k).1 →
        (categoryRows q sc sa c).filter (fun x => decide (entryKey x = k)) = [] := by
      intro c hc
      refine List.filter_eq_nil_iff.mpr (fun e he => ?_)
      simp only [decide_eq_true_eq]
      intro hk
      apply hc
      rw [← categoryRows_fst q sc sa c e he]
      have : ofLex (entryKey e) = ofLex k := by rw [hk]
      simpa [entryKey] using congrArg Prod.fst this
    rw [flatMap_eq_filter_flatMap (ofLex k).1 _ hg d1,
      flatMap_eq_filter_flatMap (ofLex k).1 _ hg d2,
      filter_key_eq_of_perm d1 d2 hperm hnodup (ofLex k).1]

/-- The C6 catalog in the opposite hash-map iteration order. -/
def dataC6r : ImageData := [("Urban".data, urbanCat), ("Nature".data, natureCat)]

/-- Witness for C10 at a concrete input: the two iteration orders of the C6
catalog produce the identical filtered list. -/
theorem claim_C10_witness :
    dataC6.Perm dataC6r ∧ (dataC6.map Prod.fst).Nodup ∧
      filteredImages "b".data "All Categories".data true dataC6 =
        filteredImages "b".data "All Categories".data true dataC6r :=
  ⟨by decide, by decide,
   claim_C10 "b".data "All Categories".data true dataC6 dataC6r (by decide) (by decide)⟩
